import Mathlib

/-!
Verification development for the Risk-Dashboard repository.

The core of the repository is `Trade.simulate_payoff` (src/trade.py), the
per-position risk facet (`value`, `max_gain`, `max_loss`, `pop`,
`expected_profit` in src/trade.py), the portfolio valuation
`get_portfolio_val` (src/database_sq.py) and the aggregator functions of
src/utils.py (here: `get_er_ann`).

Shallow embedding conventions:
* Python floats are embedded as `ℚ` for the static position terms and the
  facet/aggregator layer (all arithmetic there is field arithmetic), and as
  `ℝ` for the Monte-Carlo pipeline, which uses `exp`, `sqrt` and `log`.
* The source tags are kept verbatim: `"csp"` is the spec's
  `cash_secured_put`, `"cc"` is the spec's `covered_call`; the other five
  tags coincide with the spec's variant names.
* `strike` can be `None` in the source (`strike: float | None`), so it is
  `Option ℚ` here.  Arithmetic on a missing strike raises `TypeError` in
  Python; functions that would do so return `none` / `.error .typeErrorNone`.
* `numpy`'s process-wide generator is modelled as an explicit stream of
  draws together with a position into the stream (`RNG` below);
  `np.random.normal(size=half)` consumes the next `half` entries.
* The datetime-derived quantities `dte` (days to expiration, fractional)
  and `pos_len` (expiration − opened, fractional days) are carried as
  fields of the embedded `Trade`, since the wall clock is external input.
* `float('inf')` (the naked-short-call `max_loss`) is `(⊤ : WithTop ℚ)`.
-/

namespace RiskDashboard

/-- Embedded position record (src/trade.py, class `Trade`).  `pnl_dist` is
the stored simulated P&L sample array (`None` until populated). -/
structure Trade where
  trade_type : String
  ticker : String
  qty : ℤ
  strike : Option ℚ
  premium : ℚ
  underlying_price : ℚ
  iv : ℚ
  dte : ℚ
  pos_len : ℚ
  pnl_dist : Option (List ℚ)

/-- Python's `str.lower()` (used on the tag at src/trade.py line 155),
embedded as a character-wise lowercasing. -/
def pyLower (s : String) : String :=
  ⟨s.data.map Char.toLower⟩

/-- The seven trade-type tags accepted by the payoff dispatch of
`simulate_payoff` (src/trade.py lines 158-189). -/
def supportedVariants : List String :=
  ["long_call", "long_put", "short_call", "short_put", "cc", "csp", "shares"]

/-- Python-level exceptions that `simulate_payoff` can raise:
`ValueError("Unsupported trade type: ...")` from the dispatch fallthrough,
and `TypeError` from arithmetic on a `None` strike. -/
inductive PyError where
  | valueErrorUnsupported
  | typeErrorNone
  deriving DecidableEq

/-- Payoff evaluator (src/trade.py lines 150-191): maps the terminal-price
array `ST` to the per-path P&L array, branching on the lowercased tag.
Branches whose formula reads `self.strike` return `.error .typeErrorNone`
when it is `None`, mirroring the `TypeError` numpy would raise. -/
noncomputable def payoffArray (t : Trade) (ST : List ℝ) :
    Except PyError (List ℝ) :=
  let q : ℝ := (t.qty : ℝ)
  let c : ℝ := (t.premium : ℝ)
  let S0 : ℝ := (t.underlying_price : ℝ)
  match pyLower t.trade_type with
  | "long_call" =>
    match t.strike with
    | none => .error .typeErrorNone
    | some K => .ok (ST.map fun s => max (s - (K : ℝ)) 0 * 100 * q - c * 100 * q)
  | "long_put" =>
    match t.strike with
    | none => .error .typeErrorNone
    | some K => .ok (ST.map fun s => max ((K : ℝ) - s) 0 * 100 * q - c * 100 * q)
  | "short_call" =>
    match t.strike with
    | none => .error .typeErrorNone
    | some K => .ok (ST.map fun s => -max (s - (K : ℝ)) 0 * 100 * q + c * 100 * q)
  | "short_put" =>
    match t.strike with
    | none => .error .typeErrorNone
    | some K => .ok (ST.map fun s => -max ((K : ℝ) - s) 0 * 100 * q + c * 100 * q)
  | "cc" =>
    match t.strike with
    | none => .error .typeErrorNone
    | some K => .ok (ST.map fun s =>
        (s - S0) * q + (-max (s - (K : ℝ)) 0 * 100 * q + c * 100 * q))
  | "csp" =>
    match t.strike with
    | none => .error .typeErrorNone
    | some K => .ok (ST.map fun s => -max ((K : ℝ) - s) 0 * 100 * q + c * 100 * q)
  | "shares" => .ok (ST.map fun s => (s - S0) * q)
  | _ => .error .valueErrorUnsupported

/-- One GBM terminal price (src/trade.py line 148):
`S_T = S0 · exp((μ − σ²/2)·T + σ·√T·z)`. -/
noncomputable def gbmTerminal (S0 mu iv T z : ℝ) : ℝ :=
  S0 * Real.exp ((mu - iv ^ 2 / 2) * T + iv * Real.sqrt T * z)

/-- Antithetic variates (src/trade.py line 146):
`Z_full = np.concatenate([Z, -Z])`. -/
def antithetic (Z : List ℝ) : List ℝ :=
  Z ++ Z.map fun z => -z

/-- Terminal-price array (src/trade.py lines 144-148): the GBM transform
applied to the antithetic extension of the half-size draw vector `Z`. -/
noncomputable def terminalPrices (S0 mu iv T : ℝ) (Z : List ℝ) : List ℝ :=
  (antithetic Z).map (gbmTerminal S0 mu iv T)

/-- Time horizon fed to the path generator (src/trade.py lines 134-138):
1 year for `shares`, `max(dte, 0)/365` years otherwise. -/
def horizonT (t : Trade) : ℚ :=
  if t.trade_type = "shares" then 1 else max t.dte 0 / 365

/-- The process-wide numpy generator, modelled as a fixed stream of draws
plus the current position into it. -/
structure RNG where
  stream : ℕ → ℝ
  pos : ℕ

/-- `np.random.normal(size=n)`: take the next `n` entries of the stream and
advance the position. -/
def draw (g : RNG) (n : ℕ) : List ℝ × RNG :=
  ((List.range n).map fun i => g.stream (g.pos + i), ⟨g.stream, g.pos + n⟩)

/-- The deterministic core of `simulate_payoff` (src/trade.py lines
124-191) once the half-size draw vector `Z` is fixed: GBM terminal prices
from the antithetic extension of `Z`, then the payoff dispatch. -/
noncomputable def simulateCore (t : Trade) (mu : ℝ) (Z : List ℝ) :
    Except PyError (List ℝ) :=
  payoffArray t
    (terminalPrices (t.underlying_price : ℝ) mu (t.iv : ℝ) ((horizonT t : ℚ) : ℝ) Z)

/-- `simulate_payoff(sims, mu)` (src/trade.py lines 124-191): draws
`half = sims // 2` values from the shared generator and runs the
deterministic core on them.  Returns the result together with the advanced
generator state. -/
noncomputable def simulate_payoff (t : Trade) (sims : ℕ) (mu : ℝ) (g : RNG) :
    Except PyError (List ℝ) × RNG :=
  let Zg := draw g (sims / 2)
  (simulateCore t mu Zg.1, Zg.2)

/-- Position notional value (src/trade.py lines 46-52). -/
def value (t : Trade) : ℚ :=
  if t.trade_type = "shares" then t.underlying_price * (t.qty : ℚ)
  else |t.premium| * 100 * (t.qty : ℚ)

/-- `max_gain` (src/trade.py lines 57-82).  Branches that read
`self.strike` yield `none` on a missing strike (Python `TypeError`). -/
def max_gain (t : Trade) : Option ℚ :=
  match t.trade_type with
  | "shares" => some (value t * (1 / 2))
  | "csp" => some (t.premium * 100 * (t.qty : ℚ))
  | "cc" => t.strike.map fun K =>
      ((K - t.underlying_price) + t.premium) * 100 * (t.qty : ℚ)
  | "short_put" => some (t.premium * 100 * (t.qty : ℚ))
  | "short_call" => some (t.premium * 100 * (t.qty : ℚ))
  | "long_call" => some (t.premium * 4)
  | "long_put" => t.strike.map fun K => K * 100 * (t.qty : ℚ)
  | _ => some 0

/-- `max_loss` (src/trade.py lines 84-111); `float('inf')` for the naked
short call is `⊤`.  Branches that read `self.strike` yield `none` on a
missing strike. -/
def max_loss (t : Trade) : Option (WithTop ℚ) :=
  match t.trade_type with
  | "shares" => some ((t.underlying_price * (t.qty : ℚ) : ℚ) : WithTop ℚ)
  | "csp" => t.strike.map fun K =>
      (((K - t.premium) * 100 * (t.qty : ℚ) : ℚ) : WithTop ℚ)
  | "cc" => some 0
  | "short_put" => t.strike.map fun K =>
      (((K - t.premium) * 100 * (t.qty : ℚ) : ℚ) : WithTop ℚ)
  | "short_call" => some ⊤
  | "long_call" => some ((t.premium * 100 * (t.qty : ℚ) : ℚ) : WithTop ℚ)
  | "long_put" => some ((t.premium * 100 * (t.qty : ℚ) : ℚ) : WithTop ℚ)
  | _ => some 0

/-- `pop` (src/trade.py lines 197-203): empirical probability of profit,
`np.mean(pnl > 0)`; `0.0` when the distribution is unpopulated. -/
def pop (t : Trade) : ℚ :=
  match t.pnl_dist with
  | none => 0
  | some pnl => ((pnl.filter fun x => 0 < x).length : ℚ) / (pnl.length : ℚ)

/-- `expected_profit` (src/trade.py lines 206-212): `np.mean(pnl)`; `0.0`
when the distribution is unpopulated. -/
def expected_profit (t : Trade) : ℚ :=
  match t.pnl_dist with
  | none => 0
  | some pnl => pnl.sum / (pnl.length : ℚ)

/-- The credit-collecting tags excluded from the portfolio total
(src/database_sq.py line 125). -/
def credit_trades : List String :=
  ["csp", "cc", "short_put", "short_call"]

/-- `get_portfolio_val` (src/database_sq.py lines 122-130): cash plus the
value of every trade whose tag is not a credit tag, accumulated in list
order. -/
def get_portfolio_val (cash : ℚ) (trades : List Trade) : ℚ :=
  trades.foldl
    (fun val t => if t.trade_type ∈ credit_trades then val else val + value t)
    cash

/-- The contribution one position adds to the `get_er_ann` accumulator
(src/utils.py lines 152-159): `0` when the position is filtered out (tag in
`{shares, cc}` or `max_loss ≤ 0`), otherwise the `max_loss`-weighted
annualized cycle yield `w * (cycle_yield * (365/days))`.  `none` models a
Python `TypeError` from a missing strike, or the NaN produced when the
infinite naked-short-call `max_loss` enters the arithmetic. -/
def er_ann_contrib (port_val : ℚ) (pos : Trade) : Option ℚ :=
  match max_loss pos with
  | none => none
  | some ml =>
    if pos.trade_type ∉ ["shares", "cc"] ∧ 0 < ml then
      match ml with
      | ⊤ => none
      | (m : ℚ) =>
        let days := if 0 < pos.pos_len then pos.pos_len else 1
        some (|m| / port_val * (expected_profit pos / |m| * (365 / days)))
    else some 0

/-- One iteration of the `get_er_ann` accumulation loop
(`avg_er_ann += w * er_ann`, src/utils.py line 159). -/
def erStep (port_val : ℚ) (acc : Option ℚ) (pos : Trade) : Option ℚ :=
  acc.bind fun a => (er_ann_contrib port_val pos).map fun c => a + c

/-- `get_er_ann` (src/utils.py lines 143-161): `0` for an empty position
list or a non-positive portfolio value, otherwise the sum of per-position
contributions accumulated in list order. -/
def get_er_ann (cash : ℚ) (trades : List Trade) : Option ℚ :=
  let port_val := get_portfolio_val cash trades
  if trades.length = 0 ∨ port_val ≤ 0 then some 0
  else trades.foldl (erStep port_val) (some 0)

/-- A sample cash-secured-put position: `strike=100`, `premium=2`,
`quantity=1`, spot 95. -/
def tradeCspEx : Trade :=
  ⟨"csp", "XYZ", 1, some 100, 2, 95, 1 / 5, 30, 30, none⟩

/-- Claim C1: for every supported instrument variant and every terminal
price array `ST`, the payoff evaluator inside `simulate_payoff` returns a
same-length array whose i-th element equals the spec table's formula, with
the 100× contract multiplier on every option variant and 1× on `shares`;
in particular `csp` (cash_secured_put) and `short_put` produce identical
payoff arrays on identical inputs. -/
theorem c1_payoff_table (t : Trade) (ST : List ℝ) :
    (t.trade_type = "long_call" → ∀ K : ℚ, t.strike = some K →
      payoffArray t ST = .ok (ST.map fun s =>
        max (s - (K : ℝ)) 0 * 100 * (t.qty : ℝ) -
          (t.premium : ℝ) * 100 * (t.qty : ℝ))) ∧
    (t.trade_type = "long_put" → ∀ K : ℚ, t.strike = some K →
      payoffArray t ST = .ok (ST.map fun s =>
        max ((K : ℝ) - s) 0 * 100 * (t.qty : ℝ) -
          (t.premium : ℝ) * 100 * (t.qty : ℝ))) ∧
    (t.trade_type = "short_call" → ∀ K : ℚ, t.strike = some K →
      payoffArray t ST = .ok (ST.map fun s =>
        -max (s - (K : ℝ)) 0 * 100 * (t.qty : ℝ) +
          (t.premium : ℝ) * 100 * (t.qty : ℝ))) ∧
    (t.trade_type = "short_put" → ∀ K : ℚ, t.strike = some K →
      payoffArray t ST = .ok (ST.map fun s =>
        -max ((K : ℝ) - s) 0 * 100 * (t.qty : ℝ) +
          (t.premium : ℝ) * 100 * (t.qty : ℝ))) ∧
    (t.trade_type = "csp" → ∀ K : ℚ, t.strike = some K →
      payoffArray t ST = .ok (ST.map fun s =>
        -max ((K : ℝ) - s) 0 * 100 * (t.qty : ℝ) +
          (t.premium : ℝ) * 100 * (t.qty : ℝ))) ∧
    (t.trade_type = "cc" → ∀ K : ℚ, t.strike = some K →
      payoffArray t ST = .ok (ST.map fun s =>
        (s - (t.underlying_price : ℝ)) * (t.qty : ℝ) +
          (-max (s - (K : ℝ)) 0 * 100 * (t.qty : ℝ) +
            (t.premium : ℝ) * 100 * (t.qty : ℝ)))) ∧
    (t.trade_type = "shares" →
      payoffArray t ST =
        .ok (ST.map fun s => (s - (t.underlying_price : ℝ)) * (t.qty : ℝ))) ∧
    (∀ l, payoffArray t ST = .ok l → l.length = ST.length) ∧
    (∀ t' : Trade, t.trade_type = "csp" → t'.trade_type = "short_put" →
      t'.strike = t.strike → t'.premium = t.premium → t'.qty = t.qty →
      payoffArray t' ST = payoffArray t ST) := by
  obtain ⟨tt, tk, q, st, c, S0, iv, dte, plen, pnl⟩ := t
  refine ⟨?_, ?_, ?_, ?_, ?_, ?_, ?_, ?_, ?_⟩
  · intro h K hK; simp only at h hK; subst h hK; rfl
  · intro h K hK; simp only at h hK; subst h hK; rfl
  · intro h K hK; simp only at h hK; subst h hK; rfl
  · intro h K hK; simp only at h hK; subst h hK; rfl
  · intro h K hK; simp only at h hK; subst h hK; rfl
  · intro h K hK; simp only at h hK; subst h hK; rfl
  · intro h; simp only at h; subst h; rfl
  · intro l hl
    unfold payoffArray at hl
    repeat' split at hl
    all_goals
      first
        | exact Except.noConfusion hl
        | (injection hl with h; subst h; simp)
  · intro t' h h' hs hp hq
    obtain ⟨tt', tk', q', st', c', S0', iv', dte', plen', pnl'⟩ := t'
    simp only at h h' hs hp hq
    subst h h'
    rw [hs, hp, hq]
    cases st <;> rfl

/-- Witness for C1: the sample cash-secured put evaluated on a concrete
two-element price array yields an `ok` array of length 2. -/
theorem c1_payoff_table_witness :
    ∃ l, payoffArray tradeCspEx [(90 : ℝ), (105 : ℝ)] = Except.ok l ∧
      l.length = 2 := by
  have h :=
    (c1_payoff_table tradeCspEx [(90 : ℝ), (105 : ℝ)]).2.2.2.2.1 rfl 100 rfl
  have hlen :=
    (c1_payoff_table tradeCspEx [(90 : ℝ), (105 : ℝ)]).2.2.2.2.2.2.2.1 _ h
  exact ⟨_, h, by rw [hlen]; rfl⟩

/-- Claim C2: the variant-specific closed-form bounds of the §4.3 table:
`shares` has `max_gain = 0.5·value` and `max_loss = S0·q`; `short_call`
has `max_gain = c·100·q` and `max_loss = +∞`; `cc` (covered_call) has
`max_loss = 0`; `long_call` has `max_gain = 4·c` (no quantity factor) and
`max_loss = c·100·q`; `long_put` has `max_gain = K·100·q`; and a `csp`
(cash_secured_put) with `strike=100`, `premium=2`, `quantity=1` has
`max_gain = 200` and `max_loss = 9800`. -/
theorem c2_closed_form_bounds (t : Trade) :
    (t.trade_type = "shares" →
      max_gain t = some (value t * (1 / 2)) ∧
      max_loss t = some ((t.underlying_price * (t.qty : ℚ) : ℚ) : WithTop ℚ)) ∧
    (t.trade_type = "short_call" →
      max_gain t = some (t.premium * 100 * (t.qty : ℚ)) ∧
      max_loss t = some ⊤) ∧
    (t.trade_type = "cc" → max_loss t = some 0) ∧
    (t.trade_type = "long_call" →
      max_gain t = some (t.premium * 4) ∧
      max_loss t = some ((t.premium * 100 * (t.qty : ℚ) : ℚ) : WithTop ℚ)) ∧
    (t.trade_type = "long_put" → ∀ K : ℚ, t.strike = some K →
      max_gain t = some (K * 100 * (t.qty : ℚ)) ∧
      max_loss t = some ((t.premium * 100 * (t.qty : ℚ) : ℚ) : WithTop ℚ)) ∧
    (t.trade_type = "csp" → t.strike = some 100 → t.premium = 2 → t.qty = 1 →
      max_gain t = some 200 ∧
      max_loss t = some ((9800 : ℚ) : WithTop ℚ)) := by
  obtain ⟨tt, tk, q, st, c, S0, iv, dte, plen, pnl⟩ := t
  refine ⟨?_, ?_, ?_, ?_, ?_, ?_⟩
  · intro h; simp only at h; subst h; exact ⟨rfl, rfl⟩
  · intro h; simp only at h; subst h; exact ⟨rfl, rfl⟩
  · intro h; simp only at h; subst h; rfl
  · intro h; simp only at h; subst h; exact ⟨rfl, rfl⟩
  · intro h K hK; simp only at h hK; subst h hK; exact ⟨rfl, rfl⟩
  · intro h hK hc hq
    simp only at h hK hc hq
    subst h hK hc hq
    constructor
    · show some ((2 : ℚ) * 100 * ((1 : ℤ) : ℚ)) = some 200
      norm_num
    · show some ((((100 : ℚ) - 2) * 100 * ((1 : ℤ) : ℚ) : ℚ) : WithTop ℚ) =
        some ((9800 : ℚ) : WithTop ℚ)
      norm_num

/-- Witness for C2: the sample cash-secured put has `max_gain = 200` and
`max_loss = 9800`. -/
theorem c2_closed_form_bounds_witness :
    max_gain tradeCspEx = some 200 ∧
      max_loss tradeCspEx = some ((9800 : ℚ) : WithTop ℚ) :=
  (c2_closed_form_bounds tradeCspEx).2.2.2.2.2 rfl rfl rfl rfl

/-- For a supported tag whose strike is present when required, the payoff
evaluator succeeds and preserves the length of the input price array. -/
lemma payoffArray_ok_length (t : Trade) (ST : List ℝ)
    (h1 : pyLower t.trade_type ∈ supportedVariants)
    (h2 : pyLower t.trade_type ≠ "shares" → t.strike.isSome) :
    ∃ l, payoffArray t ST = Except.ok l ∧ l.length = ST.length := by
  simp only [supportedVariants, List.mem_cons, List.not_mem_nil, or_false] at h1
  rcases h1 with h | h | h | h | h | h | h
  · obtain ⟨K, hK⟩ := Option.isSome_iff_exists.mp (h2 (by rw [h]; decide))
    unfold payoffArray; rw [h, hK]; exact ⟨_, rfl, by simp⟩
  · obtain ⟨K, hK⟩ := Option.isSome_iff_exists.mp (h2 (by rw [h]; decide))
    unfold payoffArray; rw [h, hK]; exact ⟨_, rfl, by simp⟩
  · obtain ⟨K, hK⟩ := Option.isSome_iff_exists.mp (h2 (by rw [h]; decide))
    unfold payoffArray; rw [h, hK]; exact ⟨_, rfl, by simp⟩
  · obtain ⟨K, hK⟩ := Option.isSome_iff_exists.mp (h2 (by rw [h]; decide))
    unfold payoffArray; rw [h, hK]; exact ⟨_, rfl, by simp⟩
  · obtain ⟨K, hK⟩ := Option.isSome_iff_exists.mp (h2 (by rw [h]; decide))
    unfold payoffArray; rw [h, hK]; exact ⟨_, rfl, by simp⟩
  · obtain ⟨K, hK⟩ := Option.isSome_iff_exists.mp (h2 (by rw [h]; decide))
    unfold payoffArray; rw [h, hK]; exact ⟨_, rfl, by simp⟩
  · unfold payoffArray; rw [h]; exact ⟨_, rfl, by simp⟩

/-- Claim C3: for valid terms the P&L array returned by `simulate_payoff`
has length exactly `2·(sims / 2)` — `sims` when even, `sims` rounded down
to the nearest even number when odd — and no error is raised (also for an
odd request). -/
theorem c3_sample_count (t : Trade) (sims : ℕ) (mu : ℝ) (g : RNG)
    (h1 : pyLower t.trade_type ∈ supportedVariants)
    (h2 : pyLower t.trade_type ≠ "shares" → t.strike.isSome) :
    ∃ l, (simulate_payoff t sims mu g).1 = Except.ok l ∧
      l.length = 2 * (sims / 2) := by
  obtain ⟨l, hl, hlen⟩ := payoffArray_ok_length t
    (terminalPrices (t.underlying_price : ℝ) mu (t.iv : ℝ) ((horizonT t : ℚ) : ℝ)
      (draw g (sims / 2)).1) h1 h2
  refine ⟨l, hl, ?_⟩
  rw [hlen]
  simp [terminalPrices, antithetic, draw, two_mul]

/-- Witness for C3: an odd request of 5 samples on the sample
cash-secured put succeeds and yields `2·(5/2) = 4` samples. -/
theorem c3_sample_count_witness :
    ∃ l, (simulate_payoff tradeCspEx 5 0 ⟨fun n => (n : ℝ), 0⟩).1 = Except.ok l ∧
      l.length = 2 * (5 / 2) :=
  c3_sample_count tradeCspEx 5 0 ⟨fun n => (n : ℝ), 0⟩ (by decide) (fun _ => rfl)

/-- Reconstruction of the standard-normal draw from a terminal price:
`Z = (ln(S_T/S0) − (μ − σ²/2)·T)/(σ·√T)`. -/
noncomputable def recoverZ (S0 mu iv T x : ℝ) : ℝ :=
  (Real.log (x / S0) - (mu - iv ^ 2 / 2) * T) / (iv * Real.sqrt T)

/-- Inverting the GBM transform recovers the underlying draw when
`S0, σ, T` are positive. -/
lemma recoverZ_gbmTerminal (S0 mu iv T z : ℝ)
    (hS0 : 0 < S0) (hiv : 0 < iv) (hT : 0 < T) :
    recoverZ S0 mu iv T (gbmTerminal S0 mu iv T z) = z := by
  have hsq : Real.sqrt T ≠ 0 := ne_of_gt (Real.sqrt_pos.mpr hT)
  unfold recoverZ gbmTerminal
  rw [mul_div_cancel_left₀ _ (ne_of_gt hS0), Real.log_exp, add_sub_cancel_left,
    mul_div_cancel_left₀ _ (mul_ne_zero (ne_of_gt hiv) hsq)]

/-- Claim C4: with `σ > 0` and `T > 0` (and a positive spot), the
standard-normal draw underlying path `i + n/2`, reconstructed from the
terminal price by `recoverZ`, is the exact negation of the draw underlying
path `i`, which itself reconstructs to the i-th entry of the half-size
draw vector. -/
theorem c4_antithetic_pairing (S0 mu iv T : ℝ) (Z : List ℝ)
    (hS0 : 0 < S0) (hiv : 0 < iv) (hT : 0 < T)
    (i : ℕ) (hi : i < Z.length) :
    recoverZ S0 mu iv T ((terminalPrices S0 mu iv T Z).getD i 0) = Z.getD i 0 ∧
    recoverZ S0 mu iv T ((terminalPrices S0 mu iv T Z).getD (i + Z.length) 0) =
      -recoverZ S0 mu iv T ((terminalPrices S0 mu iv T Z).getD i 0) := by
  have hi1 : i < (terminalPrices S0 mu iv T Z).length := by
    simp [terminalPrices, antithetic]; omega
  have hi2 : i + Z.length < (terminalPrices S0 mu iv T Z).length := by
    simp [terminalPrices, antithetic]; omega
  have e1 : (terminalPrices S0 mu iv T Z).getD i 0 =
      gbmTerminal S0 mu iv T (Z.getD i 0) := by
    rw [List.getD_eq_getElem _ _ hi1, List.getD_eq_getElem _ _ hi]
    simp [terminalPrices, antithetic, List.getElem_append_left, hi]
  have e2 : (terminalPrices S0 mu iv T Z).getD (i + Z.length) 0 =
      gbmTerminal S0 mu iv T (-(Z.getD i 0)) := by
    rw [List.getD_eq_getElem _ _ hi2, List.getD_eq_getElem _ _ hi]
    simp only [terminalPrices, antithetic, List.getElem_map]
    rw [List.getElem_append_right (by omega)]
    simp
  constructor
  · rw [e1, recoverZ_gbmTerminal _ _ _ _ _ hS0 hiv hT]
  · rw [e1, e2, recoverZ_gbmTerminal _ _ _ _ _ hS0 hiv hT,
      recoverZ_gbmTerminal _ _ _ _ _ hS0 hiv hT]

/-- Witness for C4: concrete positive parameters and a singleton draw
vector. -/
theorem c4_antithetic_pairing_witness :
    recoverZ 1 0 1 1 ((terminalPrices 1 0 1 1 [2]).getD 0 0) = [(2 : ℝ)].getD 0 0 ∧
    recoverZ 1 0 1 1 ((terminalPrices 1 0 1 1 [2]).getD (0 + [(2 : ℝ)].length) 0) =
      -recoverZ 1 0 1 1 ((terminalPrices 1 0 1 1 [2]).getD 0 0) :=
  c4_antithetic_pairing 1 0 1 1 [2] one_pos one_pos one_pos 0 (by decide)

/-- Claim C5: with zero drift, if `T = 0` or `σ = 0` then every generated
terminal price equals `S0` exactly — the whole path array collapses to the
spot price, and the computation is total (no exception from the zero
multiply or zero square root). -/
theorem c5_degenerate_collapse (S0 iv T : ℝ) (Z : List ℝ)
    (h : T = 0 ∨ iv = 0) :
    terminalPrices S0 0 iv T Z = List.replicate (2 * Z.length) S0 := by
  have hg : ∀ z, gbmTerminal S0 0 iv T z = S0 := by
    intro z
    rcases h with h | h <;> simp [gbmTerminal, h]
  rw [show terminalPrices S0 0 iv T Z = (antithetic Z).map fun _ => S0 from
    List.map_congr_left fun z _ => hg z]
  rw [List.map_const']
  simp [antithetic, two_mul]

/-- Witness for C5: `T = 0` with nonzero volatility collapses a
two-draw simulation to four copies of the spot price. -/
theorem c5_degenerate_collapse_witness :
    terminalPrices 5 0 2 0 [1, 2] = List.replicate (2 * [(1 : ℝ), 2].length) 5 :=
  c5_degenerate_collapse 5 2 0 [1, 2] (Or.inl rfl)

/-- For a supported tag the dispatch never reaches the
unsupported-trade-type fallthrough. -/
lemma simulateCore_ne_unsupported (t : Trade) (mu : ℝ) (Z : List ℝ)
    (h : pyLower t.trade_type ∈ supportedVariants) :
    simulateCore t mu Z ≠ Except.error PyError.valueErrorUnsupported := by
  simp only [supportedVariants, List.mem_cons, List.not_mem_nil, or_false] at h
  rcases h with h | h | h | h | h | h | h <;>
    (unfold simulateCore payoffArray; rw [h]; cases hst : t.strike <;> simp)

/-- A quantity-zero long call with a strike: `simulate_payoff` performs no
terms validation on it. -/
def tradeQty0 : Trade :=
  ⟨"long_call", "ABC", 0, some 100, 3, 95, 1 / 5, 30, 30, none⟩

/-- Claim C6, amended: the unsupported-variant error is raised exactly when
the lowercased tag is not among the seven supported tags; there is no
`InvalidTerms` validation: a missing strike for a strike-using variant
surfaces as a `TypeError` during payoff evaluation (after the terminal
prices are generated), and any quantity — including `quantity < 1` —
raises nothing. -/
theorem c6_no_terms_validation (t : Trade) (mu : ℝ) (Z : List ℝ) :
    (pyLower t.trade_type ∉ supportedVariants →
      simulateCore t mu Z = Except.error PyError.valueErrorUnsupported) ∧
    (pyLower t.trade_type ∈ supportedVariants →
      simulateCore t mu Z ≠ Except.error PyError.valueErrorUnsupported) ∧
    (pyLower t.trade_type ∈ supportedVariants → pyLower t.trade_type ≠ "shares" →
      t.strike = none →
      simulateCore t mu Z = Except.error PyError.typeErrorNone) ∧
    (pyLower t.trade_type ∈ supportedVariants →
      (pyLower t.trade_type = "shares" ∨ t.strike.isSome) →
      ∃ l, simulateCore t mu Z = Except.ok l) := by
  refine ⟨?_, simulateCore_ne_unsupported t mu Z, ?_, ?_⟩
  · intro h
    unfold simulateCore payoffArray
    split
    all_goals
      first
        | rfl
        | (rename_i heq; exact absurd (by rw [heq]; decide) h)
  · intro h hsh hnone
    simp only [supportedVariants, List.mem_cons, List.not_mem_nil, or_false] at h
    rcases h with h | h | h | h | h | h | h <;>
      first
        | exact absurd h hsh
        | (unfold simulateCore payoffArray; rw [h, hnone]; rfl)
  · intro h hd
    obtain ⟨l, hl, _⟩ := payoffArray_ok_length t
      (terminalPrices (t.underlying_price : ℝ) mu (t.iv : ℝ)
        ((horizonT t : ℚ) : ℝ) Z) h (fun hne => hd.resolve_left hne)
    exact ⟨l, hl⟩

/-- Witness for C6 (amended): the lowercased tag `"LONG_CALL"` is
supported, so the dispatch does not raise the unsupported error on it. -/
theorem c6_no_terms_validation_witness :
    simulateCore ⟨"LONG_CALL", "ABC", 1, some 100, 3, 95, 1 / 5, 30, 30, none⟩
        0 [1] ≠ Except.error PyError.valueErrorUnsupported :=
  (c6_no_terms_validation
    ⟨"LONG_CALL", "ABC", 1, some 100, 3, 95, 1 / 5, 30, 30, none⟩ 0 [1]).2.1
    (by decide)

/-- Counterexample for C6 as stated: a supported variant with
`quantity = 0 < 1` does not fail — `simulate_payoff` returns an ordinary
sample array, so no `InvalidTerms` error is surfaced before (or during)
the simulation. -/
theorem c6_counterexample :
    tradeQty0.qty < 1 ∧ ∃ l, simulateCore tradeQty0 0 [1] = Except.ok l := by
  refine ⟨by decide, ?_⟩
  obtain ⟨l, hl, _⟩ := payoffArray_ok_length tradeQty0
    (terminalPrices (tradeQty0.underlying_price : ℝ) 0 (tradeQty0.iv : ℝ)
      ((horizonT tradeQty0 : ℚ) : ℝ) [1]) (by decide) (fun _ => rfl)
  exact ⟨l, hl⟩

/-- Two consecutive `simulate_payoff` calls on the same position, as the
dashboard triggers on creation and refresh (src/trade.py lines 29 and
116-118): both consume the single process-wide generator. -/
noncomputable def runTwice (t : Trade) (sims : ℕ) (mu : ℝ) (g : RNG) :
    Except PyError (List ℝ) × Except PyError (List ℝ) :=
  ((simulate_payoff t sims mu g).1,
   (simulate_payoff t sims mu (simulate_payoff t sims mu g).2).1)

/-- A one-share position with unit spot and unit volatility. -/
def tradeSharesEx : Trade :=
  ⟨"shares", "ABC", 1, none, 0, 1, 1, 30, 30, none⟩

/-- Claim C7, amended: `simulate_payoff` is deterministic in the position
terms and the generator state — two generator states that agree on the
consumed segment of the shared stream produce element-wise identical
P&L arrays — and each call advances the shared global stream position by
`sims / 2`; the source offers no per-call seed and no independent
per-position streams. -/
theorem c7_stream_determinism (t : Trade) (sims : ℕ) (mu : ℝ) (g g' : RNG)
    (h : ∀ i < sims / 2, g.stream (g.pos + i) = g'.stream (g'.pos + i)) :
    (simulate_payoff t sims mu g).1 = (simulate_payoff t sims mu g').1 ∧
    (simulate_payoff t sims mu g).2.pos = g.pos + sims / 2 := by
  have hdr : (draw g (sims / 2)).1 = (draw g' (sims / 2)).1 := by
    simp only [draw]
    exact List.map_congr_left fun i hi => h i (List.mem_range.mp hi)
  constructor
  · show simulateCore t mu (draw g (sims / 2)).1 =
      simulateCore t mu (draw g' (sims / 2)).1
    rw [hdr]
  · rfl

/-- Witness for C7 (amended): two distinct generator records agreeing on
the consumed segment yield the same P&L array. -/
theorem c7_stream_determinism_witness :
    (simulate_payoff tradeSharesEx 4 0 ⟨fun _ => 3, 10⟩).1 =
      (simulate_payoff tradeSharesEx 4 0 ⟨fun _ => 3, 0⟩).1 ∧
    (simulate_payoff tradeSharesEx 4 0 ⟨fun _ => 3, 10⟩).2.pos = 10 + 4 / 2 :=
  c7_stream_determinism tradeSharesEx 4 0 ⟨fun _ => 3, 10⟩ ⟨fun _ => 3, 0⟩
    (fun _ _ => rfl)

/-- Counterexample for C7 as stated: re-running `simulate_payoff` with
unchanged terms on the shared global generator does not reproduce the
P&L array — the second call consumes the next segment of the single
stream, so the two arrays differ. -/
theorem c7_counterexample :
    (runTwice tradeSharesEx 2 0 ⟨fun n => (n : ℝ), 0⟩).1 ≠
      (runTwice tradeSharesEx 2 0 ⟨fun n => (n : ℝ), 0⟩).2 := by
  intro hcontra
  have e1 : (runTwice tradeSharesEx 2 0 ⟨fun n => (n : ℝ), 0⟩).1 =
      Except.ok
        [(gbmTerminal ((1 : ℚ) : ℝ) 0 ((1 : ℚ) : ℝ) ((1 : ℚ) : ℝ)
            ((0 : ℕ) : ℝ) - ((1 : ℚ) : ℝ)) * ((1 : ℤ) : ℝ),
         (gbmTerminal ((1 : ℚ) : ℝ) 0 ((1 : ℚ) : ℝ) ((1 : ℚ) : ℝ)
            (-((0 : ℕ) : ℝ)) - ((1 : ℚ) : ℝ)) * ((1 : ℤ) : ℝ)] := rfl
  have e2 : (runTwice tradeSharesEx 2 0 ⟨fun n => (n : ℝ), 0⟩).2 =
      Except.ok
        [(gbmTerminal ((1 : ℚ) : ℝ) 0 ((1 : ℚ) : ℝ) ((1 : ℚ) : ℝ)
            ((1 : ℕ) : ℝ) - ((1 : ℚ) : ℝ)) * ((1 : ℤ) : ℝ),
         (gbmTerminal ((1 : ℚ) : ℝ) 0 ((1 : ℚ) : ℝ) ((1 : ℚ) : ℝ)
            (-((1 : ℕ) : ℝ)) - ((1 : ℚ) : ℝ)) * ((1 : ℤ) : ℝ)] := rfl
  rw [e1, e2] at hcontra
  simp only [Except.ok.injEq, List.cons.injEq, and_true] at hcontra
  obtain ⟨h1, -⟩ := hcontra
  norm_num [gbmTerminal, Real.sqrt_one, Real.exp_eq_exp] at h1

/-- The accumulation loop of `get_portfolio_val` equals cash plus the sum
of values over the non-credit trades. -/
lemma get_portfolio_val_eq (cash : ℚ) (trades : List Trade) :
    get_portfolio_val cash trades =
      cash + ((trades.filter fun t => t.trade_type ∉ credit_trades).map value).sum := by
  induction trades generalizing cash with
  | nil => simp [get_portfolio_val]
  | cons t ts ih =>
    have step : get_portfolio_val cash (t :: ts) =
        get_portfolio_val
          (if t.trade_type ∈ credit_trades then cash else cash + value t) ts := rfl
    rw [step, ih]
    by_cases hc : t.trade_type ∈ credit_trades
    · simp [hc, List.filter_cons]
    · simp [hc, List.filter_cons]
      ring

/-- A ten-share position at spot 50. -/
def tradeShares10 : Trade :=
  ⟨"shares", "ABC", 10, none, 0, 50, 3 / 10, 365, 365, none⟩

/-- Claim C8: portfolio total value is cash plus the summed value of
exactly the `shares`, `long_call` and `long_put` positions — the four
credit variants are excluded — and the concrete scenario: cash 10000 with
one 10-share position at spot 50 gives 10500. -/
theorem c8_portfolio_total_value (cash : ℚ) (trades : List Trade)
    (h : ∀ t ∈ trades, t.trade_type ∈ supportedVariants) :
    get_portfolio_val cash trades =
      cash + ((trades.filter fun t =>
        t.trade_type ∈ ["shares", "long_call", "long_put"]).map value).sum ∧
    get_portfolio_val 10000 [tradeShares10] = 10500 := by
  constructor
  · rw [get_portfolio_val_eq]
    have hfil : (trades.filter fun t => t.trade_type ∉ credit_trades) =
        trades.filter fun t =>
          t.trade_type ∈ ["shares", "long_call", "long_put"] := by
      refine List.filter_congr fun t ht => ?_
      have hm := h t ht
      simp only [supportedVariants, List.mem_cons, List.not_mem_nil, or_false] at hm
      rcases hm with h' | h' | h' | h' | h' | h' | h' <;> rw [h'] <;> decide
    rw [hfil]
  · show (10000 : ℚ) + tradeShares10.underlying_price * ((10 : ℤ) : ℚ) = 10500
    norm_num [tradeShares10]

/-- Witness for C8: the concrete scenario portfolio. -/
theorem c8_portfolio_total_value_witness :
    get_portfolio_val 10000 [tradeShares10] =
      10000 + (([tradeShares10].filter fun t =>
        t.trade_type ∈ ["shares", "long_call", "long_put"]).map value).sum ∧
    get_portfolio_val 10000 [tradeShares10] = 10500 :=
  c8_portfolio_total_value 10000 [tradeShares10] (by
    intro t ht
    rw [List.mem_singleton] at ht
    subst ht
    decide)

/-- The finite part of `max_loss` (defaulting to `0` in the infinite and
missing-strike cases); used to state the C9 sum. -/
def mlFin (t : Trade) : ℚ :=
  match max_loss t with
  | some (m : ℚ) => m
  | _ => 0

/-- The holding-day denominator of `get_er_ann` (src/utils.py line 155):
`pos_len` when positive, else `1`. -/
def holdingDays (t : Trade) : ℚ :=
  if 0 < t.pos_len then t.pos_len else 1

/-- The C9 claim's per-position term: the weighted annualized cycle yield
for included positions, `0` for excluded ones. -/
def contribVal (pv : ℚ) (t : Trade) : ℚ :=
  if t.trade_type ∉ ["shares", "cc"] ∧ 0 < mlFin t then
    |mlFin t| / pv * (expected_profit t / |mlFin t|) * (365 / holdingDays t)
  else 0

/-- For a position with finite `max_loss`, the loop contribution is the
claim's term. -/
lemma er_ann_contrib_eq (pv : ℚ) (t : Trade) (m : ℚ)
    (hm : max_loss t = some ((m : ℚ) : WithTop ℚ)) :
    er_ann_contrib pv t = some (contribVal pv t) := by
  have hmf : mlFin t = m := by unfold mlFin; rw [hm]
  unfold er_ann_contrib contribVal
  rw [hm, hmf]
  change (if t.trade_type ∉ ["shares", "cc"] ∧ 0 < ((m : ℚ) : WithTop ℚ) then
      some (|m| / pv * (expected_profit t / |m| *
        (365 / (if 0 < t.pos_len then t.pos_len else 1))))
    else some 0) =
    some (if t.trade_type ∉ ["shares", "cc"] ∧ 0 < m then
      |m| / pv * (expected_profit t / |m|) * (365 / holdingDays t)
    else 0)
  by_cases hc : t.trade_type ∉ ["shares", "cc"] ∧ 0 < m
  · rw [if_pos ⟨hc.1, WithTop.coe_pos.mpr hc.2⟩, if_pos hc]
    congr 1
    unfold holdingDays
    ring
  · rw [if_neg (fun hcon => hc ⟨hcon.1, WithTop.coe_pos.mp hcon.2⟩), if_neg hc]

/-- The `get_er_ann` loop, run over positions whose contributions are all
defined, sums the contributions. -/
lemma foldl_erStep (pv : ℚ) (l : List Trade)
    (h : ∀ t ∈ l, er_ann_contrib pv t = some (contribVal pv t)) :
    ∀ a : ℚ, l.foldl (erStep pv) (some a) = some (a + (l.map (contribVal pv)).sum) := by
  induction l with
  | nil => intro a; simp
  | cons t ts ih =>
    intro a
    have ht : erStep pv (some a) t = some (a + contribVal pv t) := by
      unfold erStep
      rw [h t (by simp)]
      rfl
    rw [List.foldl_cons, ht, ih (fun x hx => h x (by simp [hx]))]
    rw [List.map_cons, List.sum_cons, add_assoc]

/-- Mapping a guarded term and summing equals filtering then summing. -/
lemma sum_map_if {α : Type} (p : α → Prop) [DecidablePred p] (f : α → ℚ)
    (l : List α) :
    (l.map fun t => if p t then f t else 0).sum =
      ((l.filter fun t => p t).map f).sum := by
  induction l with
  | nil => rfl
  | cons t ts ih => by_cases h : p t <;> simp [List.filter_cons, h, ih]

/-- Claim C9: for a non-empty position list with positive portfolio value
whose positions all have finite `max_loss`, `get_er_ann` is the sum over
exactly the positions with variant outside `{shares, cc}` and positive
`max_loss` of `(|max_loss|/total_value)·(expected_profit/|max_loss|)·
(365/holding_days)`, where `holding_days` is `pos_len` (the designed
holding length, expiration − opened in days) replaced by `1` when not
positive; and it is `0` for an empty list or non-positive total value. -/
theorem c9_expected_return_annualized (cash : ℚ) (trades : List Trade)
    (hne : trades ≠ [])
    (hpv : 0 < get_portfolio_val cash trades)
    (hfin : ∀ t ∈ trades, ∃ m : ℚ, max_loss t = some ((m : ℚ) : WithTop ℚ)) :
    get_er_ann cash trades =
      some (((trades.filter fun t =>
          t.trade_type ∉ ["shares", "cc"] ∧ 0 < mlFin t).map fun t =>
        |mlFin t| / get_portfolio_val cash trades *
          (expected_profit t / |mlFin t|) * (365 / holdingDays t)).sum) ∧
    get_er_ann cash [] = some 0 ∧
    (∀ c' ts', get_portfolio_val c' ts' ≤ 0 → get_er_ann c' ts' = some 0) := by
  refine ⟨?_, rfl, ?_⟩
  · have hcond : ¬(trades.length = 0 ∨ get_portfolio_val cash trades ≤ 0) := by
      push_neg
      exact ⟨fun h0 => hne (List.length_eq_zero.mp h0), hpv⟩
    have hstep : ∀ t ∈ trades,
        er_ann_contrib (get_portfolio_val cash trades) t =
          some (contribVal (get_portfolio_val cash trades) t) := by
      intro t ht
      obtain ⟨m, hm⟩ := hfin t ht
      exact er_ann_contrib_eq _ t m hm
    have hfun : contribVal (get_portfolio_val cash trades) = fun t =>
        if t.trade_type ∉ ["shares", "cc"] ∧ 0 < mlFin t then
          |mlFin t| / get_portfolio_val cash trades *
            (expected_profit t / |mlFin t|) * (365 / holdingDays t)
        else 0 := rfl
    simp only [get_er_ann]
    rw [if_neg hcond, foldl_erStep _ _ hstep 0, zero_add, hfun,
      sum_map_if (fun t : Trade => t.trade_type ∉ ["shares", "cc"] ∧ 0 < mlFin t)
        (fun t => |mlFin t| / get_portfolio_val cash trades *
          (expected_profit t / |mlFin t|) * (365 / holdingDays t)) trades]
  · intro c' ts' hle
    simp only [get_er_ann]
    rw [if_pos (Or.inr hle)]

/-- Witness for C9: a one-position portfolio (the sample cash-secured put)
with cash 10000. -/
theorem c9_expected_return_annualized_witness :
    (get_er_ann 10000 [tradeCspEx] =
      some ((([tradeCspEx].filter fun t =>
          t.trade_type ∉ ["shares", "cc"] ∧ 0 < mlFin t).map fun t =>
        |mlFin t| / get_portfolio_val 10000 [tradeCspEx] *
          (expected_profit t / |mlFin t|) * (365 / holdingDays t)).sum) ∧
    get_er_ann 10000 [] = some 0 ∧
    (∀ c' ts', get_portfolio_val c' ts' ≤ 0 → get_er_ann c' ts' = some 0)) :=
  c9_expected_return_annualized 10000 [tradeCspEx] (List.cons_ne_nil _ _)
    (by decide)
    (by
      intro t ht
      rw [List.mem_singleton] at ht
      subst ht
      exact ⟨9800, by
        show some ((((100 : ℚ) - 2) * 100 * ((1 : ℤ) : ℚ) : ℚ) : WithTop ℚ) =
          some ((9800 : ℚ) : WithTop ℚ)
        norm_num⟩)

/-- Claim C10: when the stored P&L distribution is unpopulated (`None`),
both `pop` and `expected_profit` return `0.0` instead of raising. -/
theorem c10_none_distribution (t : Trade) (h : t.pnl_dist = none) :
    pop t = 0 ∧ expected_profit t = 0 := by
  unfold pop expected_profit
  rw [h]
  exact ⟨rfl, rfl⟩

/-- Witness for C10: the sample cash-secured put has an unpopulated
distribution. -/
theorem c10_none_distribution_witness :
    pop tradeCspEx = 0 ∧ expected_profit tradeCspEx = 0 :=
  c10_none_distribution tradeCspEx rfl

end RiskDashboard
